import Mathlib

/-!
Verification of the VertexDB table-store engine (a JavaScript in-memory
record store) against its natural-language specification.

The embedding below translates the source class `VertexDB` into Lean.
Conventions of the translation:

* JavaScript values stored in rows are modelled by `VDB.Value`
  (integers, strings, booleans, `null`, `undefined`).  The repository's
  examples and tests only store such scalars; floating-point numbers are
  not representable and never arise in the claims.
* A row (`{field: value}` object) is an association list that keeps key
  insertion order, mirroring JS object semantics: spreading
  `{...old, ...new}` updates existing keys in place and appends fresh ones.
* JS `Map`s (`_tables`, `_schemas`, `_triggers`) are association lists with
  `Map.set` update-in-place-or-append semantics.
* Arrays are heap cells: the store keeps `heap : List (List Row)` and the
  table map holds indices (references) into the heap.  This mirrors
  JS reference semantics, which matters because `backup()` stores the
  array references (not copies) and `insert` mutates its array in place
  via `push`, while `update`/`delete`/`setTable`/`truncate` allocate a
  fresh array and re-point the map entry.
* Exceptions are modelled with `Except`: every operation returns
  `Except Err A × DB`, the second component being the state after the
  call (JS exceptions do not roll back mutations already performed, which
  is observable in `updateSchema`).
* Wall-clock timestamps (`new Date().toISOString()`) are threaded in as an
  explicit `now : String` argument.
* Trigger callbacks are modelled as pure functions returning a
  `TrigRes`: returning `false` (`.veto`), returning anything else
  (`.pass`), or raising (`.raise`, which the source catches, logs and
  treats as a pass).  Logging itself is not modelled (pure output).
-/

namespace VDB

/-- JS scalar values storable in rows (no floats: see header note). -/
inductive Value where
  | vInt  (n : Int)
  | vStr  (s : String)
  | vBool (b : Bool)
  | vNull
  | vUndef
deriving DecidableEq, Repr

open Value

/-- JS `typeof`. -/
def typeofV : Value → String
  | vInt _  => "number"
  | vStr _  => "string"
  | vBool _ => "boolean"
  | vNull   => "object"
  | vUndef  => "undefined"

/-- JS `String(v)` coercion. -/
def jsString : Value → String
  | vInt n  => toString n
  | vStr s  => s
  | vBool b => if b then "true" else "false"
  | vNull   => "null"
  | vUndef  => "undefined"

/-- JS truthiness (`0`, `""`, `false`, `null`, `undefined` are falsy). -/
def truthy : Value → Bool
  | vInt n  => n != 0
  | vStr s  => s != ""
  | vBool b => b
  | vNull   => false
  | vUndef  => false

/-- Parse a trimmed string as an optionally signed decimal integer
(`Number(s)` semantics restricted to integers; `none` models NaN). -/
def numOfChars : List Char → Option Int
  | [] => none
  | cs =>
    let (sign, ds) :=
      match cs with
      | '-' :: t => ((-1 : Int), t)
      | '+' :: t => ((1 : Int), t)
      | t => ((1 : Int), t)
    if ds ≠ [] ∧ ds.all Char.isDigit then
      some (sign * (ds.foldl (fun a c => a * 10 + (c.toNat - 48)) 0 : Nat))
    else none

/-- JS `ToNumber` on our value space; `none` models NaN.
`Number("")` and `Number(null)` are `0`; booleans coerce to `0`/`1`. -/
def toNum : Value → Option Int
  | vInt n  => some n
  | vBool b => some (if b then 1 else 0)
  | vNull   => some 0
  | vUndef  => none
  | vStr s  =>
    let cs := (s.toList.dropWhile Char.isWhitespace).reverse.dropWhile Char.isWhitespace
    match cs.reverse with
    | [] => some 0
    | t  => numOfChars t

/-- JS `parseInt(String(v))`: on an integer the stringify/reparse round
trip is the identity; otherwise leading whitespace is skipped, then an
optional sign and the longest leading digit run; `none` models NaN. -/
def parseIntV : Value → Option Int
  | vInt n => some n
  | v =>
    let cs := (jsString v).toList.dropWhile Char.isWhitespace
    let (sign, rest) :=
      match cs with
      | '-' :: t => ((-1 : Int), t)
      | '+' :: t => ((1 : Int), t)
      | t => ((1 : Int), t)
    let ds := rest.takeWhile Char.isDigit
    if ds = [] then none
    else some (sign * (ds.foldl (fun a c => a * 10 + (c.toNat - 48)) 0 : Nat))

/-- JS abstract `<`: string/string compares lexicographically, otherwise
both sides go through `ToNumber` and NaN makes the comparison false. -/
def jsLt : Value → Value → Bool
  | vStr a, vStr b => decide (a < b)
  | a, b =>
    match toNum a, toNum b with
    | some x, some y => decide (x < y)
    | _, _ => false

/-- JS abstract `>`. -/
def jsGt : Value → Value → Bool
  | vStr a, vStr b => decide (b < a)
  | a, b =>
    match toNum a, toNum b with
    | some x, some y => decide (y < x)
    | _, _ => false

/-- JS abstract `>=` (false when either side is NaN, else `¬(<)`). -/
def jsGe : Value → Value → Bool
  | vStr a, vStr b => !decide (a < b)
  | a, b =>
    match toNum a, toNum b with
    | some x, some y => decide (y ≤ x)
    | _, _ => false

/-- JS abstract `<=`. -/
def jsLe : Value → Value → Bool
  | vStr a, vStr b => !decide (b < a)
  | a, b =>
    match toNum a, toNum b with
    | some x, some y => decide (x ≤ y)
    | _, _ => false

/-- Char-list substring containment (empty needle always contained). -/
def chContains : List Char → List Char → Bool
  | [], n => n.isEmpty
  | h :: t, n => n.isPrefixOf (h :: t) || chContains t n

/-- JS `haystack.includes(needle)` substring containment. -/
def strContains (hay needle : String) : Bool :=
  chContains hay.toList needle.toList

/-- A JS object row: field/value pairs in key-insertion order. -/
abbrev Row := List (String × Value)

/-- Source `row[field]`: first binding if present, else `undefined`. -/
def jsGet (r : Row) (f : String) : Value :=
  (r.lookup f).getD vUndef

/-- Setting a key on an object (also one step of `{...r, f: v}` spread):
an existing key keeps its position, a new key is appended. -/
def rowSet (r : Row) (f : String) (v : Value) : Row :=
  match r with
  | [] => [(f, v)]
  | (f', v') :: t => if f' = f then (f, v) :: t else (f', v') :: rowSet t f v

/-- Source `{...old, ...new}`: spread `new`'s bindings onto `old` in order. -/
def mergeRows (old new : Row) : Row :=
  new.foldl (fun acc p => rowSet acc p.1 p.2) old

/-- A where-condition's value: a scalar, or an array (from `whereIn`). -/
inductive CondVal where
  | v   (x : Value)
  | arr (xs : List Value)
deriving DecidableEq, Repr

/-- One entry of `_whereConditions`.  Both `where(field, value, operator)`
and `whereOperator(field, operator, value)` push the same object shape;
`operator` carries either a conjunction tag (`AND`/`OR`) or a comparison
operator — the evaluator switches on it either way. -/
structure Cond where
  field    : String
  operator : String
  value    : CondVal
deriving DecidableEq, Repr

/-- The evaluator's per-condition test (the `switch` in `_applyConditions`).
Cases that would raise a `TypeError` in JS (e.g. `IN`/`LIKE` with a value
that has no `includes`/`replace` method) are modelled as a non-match; no
repository code path reaches them. -/
def condMatch (row : Row) (c : Cond) : Bool :=
  if c.operator = "IN" then
    match c.value with
    | .arr xs => xs.contains (jsGet row c.field)
    | .v (vStr s) => strContains s (jsString (jsGet row c.field))
    | .v _ => false
  else if c.operator = "LIKE" then
    match c.value with
    | .v (vStr p) => strContains (jsString (jsGet row c.field)) ((p.toList.filter (· ≠ '%')).asString)
    | _ => false
  else if c.operator = ">" then
    match c.value with
    | .v x => jsGt (jsGet row c.field) x
    | .arr _ => false
  else if c.operator = "<" then
    match c.value with
    | .v x => jsLt (jsGet row c.field) x
    | .arr _ => false
  else if c.operator = ">=" then
    match c.value with
    | .v x => jsGe (jsGet row c.field) x
    | .arr _ => false
  else if c.operator = "<=" then
    match c.value with
    | .v x => jsLe (jsGet row c.field) x
    | .arr _ => false
  else if c.operator = "!=" then
    match c.value with
    | .v x => !(jsGet row c.field == x)
    | .arr _ => true
  else
    -- default: strict equality (this is where `AND`/`OR` tags land)
    match c.value with
    | .v x => jsGet row c.field == x
    | .arr _ => false  -- `===` against an array is reference equality

/-- The where-conditions step of the read evaluator: keep rows accepted by
every condition (logical AND via `Array.every`). -/
def whereFilter (conds : List Cond) (data : List Row) : List Row :=
  data.filter (fun row => conds.all (condMatch row))

/-- The matcher used by `update`/`delete`:
`row[condition.field] === condition.value`, ignoring the operator. -/
def eqMatches (conds : List Cond) (row : Row) : Bool :=
  conds.all (fun c =>
    match c.value with
    | .v x => jsGet row c.field == x
    | .arr _ => false)

/-- Order specification from `orderBy(column, direction)`. -/
structure OrderSpec where
  column    : String
  direction : String
deriving DecidableEq, Repr

/-- The comparator passed to `Array.sort` by `_applyConditions`:
ascending is `a[col] > b[col] ? 1 : -1`, descending `a[col] < b[col] ? 1 : -1`.
Note it never returns 0. -/
def sortCmp (o : OrderSpec) (a b : Row) : Int :=
  if o.direction = "ASC" then
    if jsGt (jsGet a o.column) (jsGet b o.column) then 1 else -1
  else
    if jsLt (jsGet a o.column) (jsGet b o.column) then 1 else -1

/-- Model of `Array.prototype.sort` with the comparator above, as a stable
merge sort (take-left when the comparator is ≤ 0).  ECMAScript only pins
down the result for *consistent* comparators; `sortCmp` is not consistent
(ties give -1 both ways), so engines may produce other orders — see the
C8 development below. -/
def jsSort (o : OrderSpec) (rows : List Row) : List Row :=
  rows.mergeSort (fun a b => sortCmp o a b ≤ 0)

/-- JS `Array.prototype.slice(start, stop)` with negative-index wrapping. -/
def jsSlice (xs : List Row) (start stop : Int) : List Row :=
  let len : Int := xs.length
  let rs : Int := if start < 0 then max (len + start) 0 else min start len
  let re : Int := if stop < 0 then max (len + stop) 0 else min stop len
  (xs.drop rs.toNat).take (re - rs).toNat

/-- Errors raised by the store (the source throws `Error` with a message;
we record the kind and the data interpolated into the message). -/
inductive Err where
  | tableNotFound   (t : String)
  | tableExists     (t : String)
  | triggerExists   (t n : String)
  | triggerNotFound (t n : String)
  | invalidInput    (msg : String)
  | schemaViolation (field rule : String)
  | parseError
  | restoreError
  | userError       (msg : String)
deriving DecidableEq, Repr

/-- One field's rule set in a schema.  `pattern` models `RegExp.test` as a
boolean predicate on the stringified value. -/
structure Rule where
  required : Bool
  type     : Option String
  min      : Option Value
  max      : Option Value
  length   : Option Nat
  pattern  : Option (String → Bool)

/-- The all-none rule, for building schemas concisely. -/
def Rule.none' : Rule :=
  { required := false, type := none, min := none, max := none,
    length := none, pattern := none }

/-- A schema: field name → rule set, in declaration order. -/
abbrev Schema := List (String × Rule)

/-- One field check of `_validateSchema`, in source order; guards mirror
the truthiness tests (`rules.min && ...` skips falsy bounds, a zero
`length` is skipped, an empty-string `type` is skipped). -/
def ruleError (row : Row) (f : String) (r : Rule) : Option Err :=
  let v := jsGet row f
  if r.required && (v == vUndef || v == vNull) then
    some (.schemaViolation f "required")
  else if r.type.any (fun ty => ty != "" && typeofV v != ty) then
    some (.schemaViolation f "type")
  else if r.min.any (fun m => truthy m && jsLt v m) then
    some (.schemaViolation f "min")
  else if r.max.any (fun m => truthy m && jsGt v m) then
    some (.schemaViolation f "max")
  else if r.length.any (fun n => n != 0 && (jsString v).length != n) then
    some (.schemaViolation f "length")
  else
    match r.pattern with
    | some p => if p (jsString v) then none else some (.schemaViolation f "pattern")
    | none => none

/-- Check one row against every schema field, first violation wins. -/
def validateRow (row : Row) : Schema → Option Err
  | [] => none
  | (f, r) :: rest =>
    match ruleError row f r with
    | some e => some e
    | none => validateRow row rest

/-- Source `_validateSchema(data, schema)`: first violation across the batch. -/
def validateSchema : List Row → Schema → Option Err
  | [], _ => none
  | row :: rest, s =>
    match validateRow row s with
    | some e => some e
    | none => validateSchema rest s

/-- Outcome of one trigger callback: returned `false`, returned anything
else, or raised (caught and logged by `_trigger`, treated as a pass). -/
inductive TrigRes where
  | veto
  | pass
  | raise'
deriving DecidableEq, Repr

/-- A trigger callback: receives `{operation, OLD, NEW}`. -/
abbrev Trig := String → Option Row → Option Row → TrigRes

/-- Source `_trigger`: run every trigger of the table; `shouldCommit` starts true
and only an explicit `false` return clears it (exceptions are caught). -/
def fireTriggers (trigs : List (String × Trig)) (op : String)
    (old new : Option Row) : Bool :=
  trigs.foldl
    (fun commit tr => match tr.2 op old new with | .veto => false | _ => commit)
    true

/-- A declared relationship (metadata only, never interpreted). -/
structure Rel where
  table      : String
  type       : String
  foreignKey : String
deriving DecidableEq, Repr

/-- JS `Map.set`: replace in place if the key exists, else append. -/
def mapSet {α : Type} : List (String × α) → String → α → List (String × α)
  | [], k, v => [(k, v)]
  | (k', v') :: t, k, v =>
    if k' = k then (k, v) :: t else (k', v') :: mapSet t k v

/-- JS `Map.has`. -/
def mapHas {α : Type} (m : List (String × α)) (k : String) : Bool :=
  (m.lookup k).isSome

/-- The store state.  `heap` holds the array objects; `tables` maps a
table name to the index of its array in `heap` (reference semantics). -/
structure DB where
  heap             : List (List Row)
  tables           : List (String × Nat)
  schemas          : List (String × Schema)
  triggers         : List (String × List (String × Trig))
  relationships    : List (String × List Rel)
  whereConditions  : List Cond
  searchConditions : List (String × Value)
  orderBySpec      : Option OrderSpec
  limitN           : Option Int
  offsetN          : Int
  timestamps       : Bool
  softDelete       : Bool
  lastInsertId     : Value

/-- A fresh store (`new VertexDB(config)`); `_lastInsertId` starts out
undefined. -/
def DB.mk' (timestamps softDelete : Bool) : DB :=
  { heap := [], tables := [], schemas := [], triggers := [],
    relationships := [], whereConditions := [], searchConditions := [],
    orderBySpec := none, limitN := none, offsetN := 0,
    timestamps := timestamps, softDelete := softDelete,
    lastInsertId := vUndef }

/-- Dereference a heap cell (refs produced by the API are always valid). -/
def heapRows (s : DB) (r : Nat) : List Row :=
  (s.heap.get? r).getD []

/-- The rows currently stored under a table name, if the table exists. -/
def tblRows (s : DB) (t : String) : Option (List Row) :=
  (s.tables.lookup t).map (heapRows s)

/-- Source `_resetConditions`. -/
def resetConditions (s : DB) : DB :=
  { s with whereConditions := [], searchConditions := [],
           orderBySpec := none, limitN := none, offsetN := 0 }

/-- Source `_applyConditions`: where-filter, search, order, pagination. -/
def applyConditions (s : DB) (data : List Row) : List Row :=
  let results := data
  let results :=
    if s.whereConditions.length > 0 then
      whereFilter s.whereConditions results
    else results
  let results :=
    if s.searchConditions.length > 0 then
      results.filter (fun row =>
        s.searchConditions.any (fun p =>
          strContains ((jsString (jsGet row p.1)).toLower)
            ((jsString p.2).toLower)))
    else results
  let results :=
    match s.orderBySpec with
    | some o => jsSort o results
    | none => results
  match s.limitN with
  | some l => jsSlice results s.offsetN (s.offsetN + l)
  | none => results

/-- Source `where(field, value, operator)` (source default conjunction: `AND`). -/
def whereCond (s : DB) (f : String) (v : Value) (conj : String) : DB :=
  { s with whereConditions := s.whereConditions ++ [⟨f, conj, .v v⟩] }

/-- Source `orWhere(field, value)` = `where(field, value, 'OR')`. -/
def orWhere (s : DB) (f : String) (v : Value) : DB :=
  whereCond s f v "OR"

/-- Source `whereOperator(field, operator, value)`. -/
def whereOperator (s : DB) (f op : String) (v : CondVal) : DB :=
  { s with whereConditions := s.whereConditions ++ [⟨f, op, v⟩] }

/-- Source `whereIn(field, values)` (the non-array input error is excluded by
the argument type). -/
def whereIn (s : DB) (f : String) (vals : List Value) : DB :=
  { s with whereConditions := s.whereConditions ++ [⟨f, "IN", .arr vals⟩] }

/-- Source `whereLike(field, pattern)`. -/
def whereLike (s : DB) (f : String) (p : Value) : DB :=
  { s with whereConditions := s.whereConditions ++ [⟨f, "LIKE", .v p⟩] }

/-- Source `search(conditions)` (object entries in key order). -/
def search (s : DB) (conds : List (String × Value)) : DB :=
  { s with searchConditions := conds }

/-- Source `orderBy(column, direction)`. -/
def orderBy (s : DB) (col dir : String) : DB :=
  { s with orderBySpec := some ⟨col, dir.toUpper⟩ }

/-- Source `limit(limit, offset)`. -/
def limit (s : DB) (l off : Int) : DB :=
  { s with limitN := some l, offsetN := off }

/-- Source `get(tableName)`: throws if absent; copies the rows; soft-delete
filter; conditions; then resets the transient state. -/
def get (s : DB) (t : String) : Except Err (List Row) × DB :=
  match s.tables.lookup t with
  | none => (.error (.tableNotFound t), s)
  | some ref =>
    let results := heapRows s ref
    let results :=
      if s.softDelete then
        results.filter (fun row => !truthy (jsGet row "deleted_at"))
      else results
    let results := applyConditions s results
    (.ok results, resetConditions s)

/-- Source `getOne(tableName)`. -/
def getOne (s : DB) (t : String) : Except Err (Option Row) × DB :=
  match get s t with
  | (.ok rs, s1) => (.ok rs.head?, s1)
  | (.error e, s1) => (.error e, s1)

/-- Source `count(tableName)`. -/
def count (s : DB) (t : String) : Except Err Nat × DB :=
  match get s t with
  | (.ok rs, s1) => (.ok rs.length, s1)
  | (.error e, s1) => (.error e, s1)

/-- Source `_getNextId`: 1 on a missing/empty table, else
`Math.max(...ids.map(id => parseInt(id) || 0)) + 1`. -/
def getNextId (s : DB) (t : String) : Int :=
  match tblRows s t with
  | none => 1
  | some [] => 1
  | some (r :: rest) =>
    (rest.map (fun row => (parseIntV (jsGet row "id")).getD 0)).foldl max
      ((parseIntV (jsGet r "id")).getD 0) + 1

/-- Source `insert(tableName, data)`: existence check, auto-increment sentinel
resolution, `_lastInsertId` assignment (before timestamps and triggers),
timestamp stamping, trigger round, conditional in-place push. -/
def insert (s : DB) (t : String) (d : Row) (now : String) :
    Except Err Unit × DB :=
  match s.tables.lookup t with
  | none => (.error (.tableNotFound t), s)
  | some ref =>
    let table := heapRows s ref
    let newData := d
    let newData :=
      if jsGet d "id" == vStr "AUTO_INCREMENT" then
        rowSet newData "id" (vInt (getNextId s t))
      else newData
    let lastId := jsGet newData "id"
    let newData :=
      if s.timestamps then
        rowSet (rowSet newData "created_at" (vStr now)) "updated_at" (vStr now)
      else newData
    let shouldInsert :=
      fireTriggers ((s.triggers.lookup t).getD []) "insert" none (some newData)
    let s1 := { s with lastInsertId := lastId }
    if shouldInsert then
      (.ok (), { s1 with heap := s1.heap.set ref (table ++ [newData]) })
    else
      (.ok (), s1)

/-- Source `getLastInsertId()`: `null` while `_lastInsertId` is falsy. -/
def getLastInsertId (s : DB) : Option Value :=
  if truthy s.lastInsertId then some s.lastInsertId else none

/-- Source `update(tableName, data)`: per-row equality matching on the pending
conditions, merge, trigger veto; allocates a fresh array for the table. -/
def update (s : DB) (t : String) (d : Row) (now : String) :
    Except Err Unit × DB :=
  match s.tables.lookup t with
  | none => (.error (.tableNotFound t), s)
  | some ref =>
    let updateData := if s.timestamps then rowSet d "updated_at" (vStr now) else d
    let table := heapRows s ref
    let updatedTable := table.map (fun row =>
      let shouldUpdate := eqMatches s.whereConditions row
      let newData := if shouldUpdate then mergeRows row updateData else row
      let shouldUpdate :=
        shouldUpdate &&
          fireTriggers ((s.triggers.lookup t).getD []) "update" (some row)
            (some newData)
      if shouldUpdate then newData else row)
    let s1 := { s with heap := s.heap ++ [updatedTable],
                       tables := mapSet s.tables t s.heap.length }
    (.ok (), resetConditions s1)

/-- Source `delete(tableName)`: soft-delete marks matching non-vetoed rows with
`deleted_at`, hard delete filters them out; fresh array either way. -/
def delete (s : DB) (t : String) (now : String) : Except Err Unit × DB :=
  match s.tables.lookup t with
  | none => (.error (.tableNotFound t), s)
  | some ref =>
    let table := heapRows s ref
    if s.softDelete then
      let updatedTable := table.map (fun row =>
        let sd := eqMatches s.whereConditions row
        let sd :=
          sd && fireTriggers ((s.triggers.lookup t).getD []) "delete" (some row) none
        if sd then rowSet row "deleted_at" (vStr now) else row)
      let s1 := { s with heap := s.heap ++ [updatedTable],
                         tables := mapSet s.tables t s.heap.length }
      (.ok (), resetConditions s1)
    else
      let filteredTable := table.filter (fun row =>
        let sd := eqMatches s.whereConditions row
        let sd :=
          sd && fireTriggers ((s.triggers.lookup t).getD []) "delete" (some row) none
        !sd)
      let s1 := { s with heap := s.heap ++ [filteredTable],
                         tables := mapSet s.tables t s.heap.length }
      (.ok (), resetConditions s1)

/-- Source `truncate(tableName)`: point the table at a fresh empty array. -/
def truncate (s : DB) (t : String) : Except Err Unit × DB :=
  match s.tables.lookup t with
  | none => (.error (.tableNotFound t), s)
  | some _ =>
    (.ok (), { s with heap := s.heap ++ [[]],
                      tables := mapSet s.tables t s.heap.length })

/-- Source `getSchema(tableName)` (`null` when absent). -/
def getSchema (s : DB) (t : String) : Option Schema :=
  s.schemas.lookup t

/-- Source `updateSchema(tableName, schema)`: existence check, then the schema
map is overwritten BEFORE the existing rows are re-validated; a
validation failure therefore propagates with the new schema already
recorded. -/
def updateSchema (s : DB) (t : String) (sc : Schema) : Except Err Unit × DB :=
  match s.tables.lookup t with
  | none => (.error (.tableNotFound t), s)
  | some ref =>
    let s1 := { s with schemas := mapSet s.schemas t sc }
    let table := heapRows s1 ref
    match validateSchema table sc with
    | some e => (.error e, s1)
    | none => (.ok (), s1)

/-- A `backup()` snapshot.  `data` holds the live array references of the
tables (the source assigns `backup.data[name] = data` without copying);
relationship lists are copied by value here since no modelled operation
mutates one in place. -/
structure Backup where
  timestamp     : String
  data          : List (String × Nat)
  tablesMeta    : List (String × Nat)
  relationships : List (String × List Rel)

/-- Source `backup()`. -/
def backup (s : DB) (now : String) : Backup :=
  { timestamp := now,
    data := s.tables,
    tablesMeta := s.tables.map (fun p => (p.1, (heapRows s p.2).length)),
    relationships := s.relationships }

/-- Source `restore(backup)`: re-point the table map at the snapshot's array
references (the heap cells themselves are whatever they are now). -/
def restore (s : DB) (b : Backup) : DB :=
  { s with tables := b.data, relationships := b.relationships }

/-- Source `transaction(callback)`: snapshot, run the callback (whose mutations
persist even if it raises — JS exceptions do not undo state), and on a
raised failure restore the snapshot and re-raise. -/
def transaction (s : DB) (cb : DB → Option Err × DB) (now : String) :
    Except Err Unit × DB :=
  let bk := backup s now
  match cb s with
  | (none, s1) => (.ok (), s1)
  | (some e, s1) => (.error e, restore s1 bk)

/-! ### Auxiliary definitions used by the claim statements -/

/-- The auto-increment id as claim C5 words it:
`max(existing integer ids, 0) + 1`, non-integer or missing ids treated
as 0.  (Spec-worded definition, for comparison with `getNextId`.) -/
def specAutoId (rows : List Row) : Int :=
  ((rows.map (fun r =>
      match jsGet r "id" with
      | vInt n => n
      | _ => 0)).foldl max 0) + 1

/-- The id `insert` will store as `_lastInsertId`: the row's id after
auto-increment resolution (and `undefined` when the row has none). -/
def resolvedId (s : DB) (t : String) (d : Row) : Value :=
  if jsGet d "id" == vStr "AUTO_INCREMENT" then vInt (getNextId s t)
  else jsGet d "id"

/-! ### Concrete scenarios for the per-claim counterexamples/bug traces -/

/-- C1 scenario: an empty table `t` with schema `age : number`. -/
def scC1 : Schema := [("age", { Rule.none' with type := some "number" })]

def dbC1 : DB :=
  { DB.mk' false false with
    heap := [[]], tables := [("t", 0)], schemas := [("t", scC1)] }

/-- The row inserted in the C1 scenario; violates `scC1` (`age` is a
string). -/
def rowC1 : Row := [("age", vStr "x")]

/-- C2 scenario: a store with one empty table `t`. -/
def dbC2 : DB := { DB.mk' false false with heap := [[]], tables := [("t", 0)] }

/-- C2 transaction callback: inserts one row into `t`, then raises. -/
def cbC2 : DB → Option Err × DB := fun s =>
  (some (Err.userError "boom"), (insert s "t" [("id", vInt 1)] "TS").2)

/-- C3 scenario: table `t` holding one row whose `age` is a string, and
no schema attached yet. -/
def dbC3 : DB :=
  { DB.mk' false false with heap := [[[("age", vStr "x")]]], tables := [("t", 0)] }

/-- The schema C3 tries to install (violated by the existing row). -/
def scC3 : Schema := [("age", { Rule.none' with type := some "number" })]

/-- C4 scenario: one row with `age = 30`, and a pending operator
condition `age > 25` (added via `whereOperator`). -/
def rowC4 : Row := [("age", vInt 30)]

def condsC4 : List Cond := [⟨"age", ">", .v (vInt 25)⟩]

def dbC4 : DB :=
  { DB.mk' false false with
    heap := [[rowC4]], tables := [("t", 0)], whereConditions := condsC4 }

/-- C5 scenario: table `t` whose only row has the (integer) id `-5`. -/
def dbC5 : DB :=
  { DB.mk' false false with heap := [[[("id", vInt (-5))]]], tables := [("t", 0)] }

/-- C9 scenario: empty table `t` with a trigger that vetoes every
mutation. -/
def dbC9 : DB :=
  { DB.mk' false false with
    heap := [[]], tables := [("t", 0)],
    triggers := [("t", [("veto", fun _ _ _ => TrigRes.veto)])] }

/-- Witness scenarios (states used to instantiate the hypotheses of the
universally quantified theorems at concrete inputs). -/
def dbC5w : DB :=
  { DB.mk' false false with heap := [[[("id", vInt 3)]]], tables := [("t", 0)] }

def dbC6w : DB :=
  { DB.mk' false false with
    heap := [[[("age", vInt 25), ("name", vStr "Jane")],
              [("age", vInt 25), ("name", vStr "Bob")],
              [("age", vInt 30), ("name", vStr "Jane")]]],
    tables := [("users", 0)] }

def dbC7w : DB :=
  { DB.mk' false true with
    heap := [[[("id", vInt 1)], [("id", vInt 2)]]], tables := [("t", 0)],
    whereConditions := [⟨"id", "AND", .v (vInt 1)⟩] }

def dbC9w : DB :=
  { DB.mk' false false with
    heap := [[]], tables := [("t", 0)],
    triggers := [("t", [("veto", fun _ _ _ => TrigRes.veto)])] }

def dbC10w : DB :=
  { DB.mk' false false with
    heap := [[]], tables := [("t", 0)],
    whereConditions := [⟨"a", "AND", .v (vInt 1)⟩],
    searchConditions := [("b", vStr "x")],
    orderBySpec := some ⟨"a", "ASC"⟩, limitN := some 5, offsetN := 1 }

/-! ## Helper lemmas -/

theorem lookup_mapSet_self {α : Type} (m : List (String × α)) (k : String)
    (v : α) : (mapSet m k v).lookup k = some v := by
  induction m with
  | nil => simp [mapSet]
  | cons p t ih =>
    by_cases h : p.1 = k
    · simp [mapSet, h]
    · have hb : (k == p.1) = false :=
        beq_eq_false_iff_ne.mpr (fun hh => h hh.symm)
      simp [mapSet, h, List.lookup, hb, ih]

theorem jsGet_rowSet_self (r : Row) (f : String) (v : Value) :
    jsGet (rowSet r f v) f = v := by
  induction r with
  | nil => simp [rowSet, jsGet, List.lookup]
  | cons p t ih =>
    by_cases h : p.1 = f
    · simp [rowSet, h, jsGet, List.lookup]
    · have hb : (f == p.1) = false :=
        beq_eq_false_iff_ne.mpr (fun hh => h hh.symm)
      simp only [rowSet]
      rw [if_neg h]
      simpa [jsGet, List.lookup, hb] using ih

theorem le_foldl_max (l : List Int) (init : Int) :
    init ≤ l.foldl max init := by
  induction l generalizing init with
  | nil => simp
  | cons x t ih =>
    calc init ≤ max init x := le_max_left _ _
    _ ≤ t.foldl max (max init x) := ih _

theorem mem_le_foldl_max (l : List Int) (init x : Int) (hx : x ∈ l) :
    x ≤ l.foldl max init := by
  induction l generalizing init with
  | nil => cases hx
  | cons y t ih =>
    rcases List.mem_cons.mp hx with h | h
    · subst h
      calc x ≤ max init x := le_max_right _ _
      _ ≤ t.foldl max (max init x) := le_foldl_max _ _
    · exact ih _ h

theorem truncate_tblRows (s : DB) (t : String) (ref : Nat)
    (h : s.tables.lookup t = some ref) :
    tblRows (truncate s t).2 t = some [] := by
  unfold truncate
  rw [h]
  simp only [tblRows, heapRows, lookup_mapSet_self, Option.map_some',
    List.get?_concat_length, Option.getD_some]

theorem delete_soft_state (s : DB) (t : String) (ref : Nat) (rows : List Row)
    (now : String)
    (h1 : s.tables.lookup t = some ref)
    (h2 : s.heap.get? ref = some rows)
    (hsd : s.softDelete = true) :
    (delete s t now).2 = resetConditions
      { s with
        heap := s.heap ++ [rows.map (fun row =>
          if eqMatches s.whereConditions row
              && fireTriggers ((s.triggers.lookup t).getD []) "delete" (some row) none
          then rowSet row "deleted_at" (vStr now) else row)],
        tables := mapSet s.tables t s.heap.length } := by
  unfold delete
  rw [h1]
  simp only [hsd, if_true, heapRows, h2, Option.getD_some]

theorem get_after_soft_delete (s : DB) (t : String) (ref : Nat) (rows : List Row)
    (now : String)
    (h1 : s.tables.lookup t = some ref)
    (h2 : s.heap.get? ref = some rows)
    (hsd : s.softDelete = true) :
    get (delete s t now).2 t
      = (.ok (((rows.map (fun row =>
          if eqMatches s.whereConditions row
              && fireTriggers ((s.triggers.lookup t).getD []) "delete" (some row) none
          then rowSet row "deleted_at" (vStr now) else row)).filter
            (fun row => !truthy (jsGet row "deleted_at")))),
          resetConditions (delete s t now).2) := by
  rw [delete_soft_state s t ref rows now h1 h2 hsd]
  unfold get
  simp only [resetConditions, lookup_mapSet_self]
  simp only [heapRows, List.get?_concat_length, Option.getD_some, hsd, if_true]
  unfold applyConditions
  simp only [List.length_nil, gt_iff_lt, lt_irrefl, if_false]

/-! ## Claims -/

/-- C1 (code bug trace).  Claim: `insert` on a row violating the table's
schema raises `SchemaValidationError` and leaves the row count
unchanged.  The code performs no schema validation in `insert`: in the
scenario (table `t` with schema `age : number`, inserted row
`{age: "x"}`), the row does violate the schema, yet the insert succeeds
and the table grows from 0 to 1 rows. -/
theorem C1_insert_skips_schema_validation :
    getSchema dbC1 "t" = some scC1
    ∧ validateSchema [rowC1] scC1 = some (.schemaViolation "age" "type")
    ∧ tblRows dbC1 "t" = some []
    ∧ (insert dbC1 "t" rowC1 "TS").1 = .ok ()
    ∧ tblRows (insert dbC1 "t" rowC1 "TS").2 "t" = some [rowC1] := by
  refine ⟨rfl, rfl, rfl, rfl, rfl⟩

/-- C2 (code bug trace).  Claim: after `transaction` re-raises a callback
failure, the table-to-rows mapping equals the pre-transaction state (the
callback's inserts are gone).  The code's `backup()` stores the live
array references and `insert` pushes in place, so after the rollback the
inserted row is still there: starting from `t ↦ []`, a callback that
inserts `{id: 1}` and then raises leaves `t ↦ [{id: 1}]`. -/
theorem C2_transaction_rollback_keeps_inserted_row :
    tblRows dbC2 "t" = some []
    ∧ (transaction dbC2 cbC2 "TS").1 = .error (.userError "boom")
    ∧ tblRows (transaction dbC2 cbC2 "TS").2 "t" = some [[("id", vInt 1)]] := by
  refine ⟨rfl, rfl, rfl⟩

/-- C3 (code bug trace).  Claim: when existing rows violate the new
schema, `updateSchema` raises and leaves the stored schema unchanged.
The code overwrites the schema map before re-validating: on table `t`
holding `{age: "x"}` with no schema, `updateSchema(t, {age: number})`
raises `SchemaValidationError` but the new schema is recorded. -/
theorem C3_updateSchema_records_schema_despite_failure :
    getSchema dbC3 "t" = none
    ∧ (updateSchema dbC3 "t" scC3).1 = .error (.schemaViolation "age" "type")
    ∧ getSchema (updateSchema dbC3 "t" scC3).2 "t" = some scC3 := by
  refine ⟨rfl, rfl, rfl⟩

/-- C4 (counterexample).  Claim: `update` treats a row as matching iff
the read evaluator's where-condition step accepts it.  With the pending
operator condition `age > 25` and the row `{age: 30}`, the read
evaluator accepts the row but `update` (which tests
`row[field] === value`, ignoring the operator) does not: the update
leaves the row untouched. -/
theorem C4_update_ignores_operator_counterexample :
    condsC4.all (condMatch rowC4) = true
    ∧ eqMatches condsC4 rowC4 = false
    ∧ tblRows (update dbC4 "t" [("flag", vInt 1)] "TS").2 "t" = some [rowC4] := by
  refine ⟨rfl, rfl, rfl⟩

/-- C5 (counterexample).  Claim: the auto-increment id is
`max(existing integer ids, 0) + 1` (so never below 1 once 0 enters the
max).  The code computes `max(...ids.map(id => parseInt(id) || 0)) + 1`
without including 0 for parsable ids: on a table whose only row has id
`-5`, the claim's formula gives 1 but the code assigns `-4`. -/
theorem C5_auto_increment_negative_ids_counterexample :
    getNextId dbC5 "t" = -4
    ∧ specAutoId [[("id", vInt (-5))]] = 1
    ∧ tblRows (insert dbC5 "t" [("id", vStr "AUTO_INCREMENT")] "TS").2 "t"
        = some [[("id", vInt (-5))], [("id", vInt (-4))]] := by
  refine ⟨rfl, rfl, rfl⟩

/-- C8 (code bug trace).  Claim: the ordering step is a stable sort
(equal keys retain their prior relative order).  The comparator the
source passes to `Array.sort` never returns 0 — on rows with equal keys
it returns -1 in both argument orders — so it is not a consistent
comparator and ECMAScript leaves the resulting order
implementation-defined; the stability the claim relies on is forfeited
(V8's binary-insertion path reverses tie order). -/
theorem C8_sort_comparator_inconsistent :
    (∀ (o : OrderSpec) (a b : Row), sortCmp o a b ≠ 0)
    ∧ sortCmp ⟨"k", "ASC"⟩ [("k", vInt 1), ("n", vStr "a")]
        [("k", vInt 1), ("n", vStr "b")] = -1
    ∧ sortCmp ⟨"k", "ASC"⟩ [("k", vInt 1), ("n", vStr "b")]
        [("k", vInt 1), ("n", vStr "a")] = -1 := by
  refine ⟨?_, rfl, rfl⟩
  intro o a b
  unfold sortCmp
  split
  · split <;> decide
  · split <;> decide

/-- C9 (counterexample).  Claim: after a vetoed insert,
`getLastInsertId` returns the vetoed row's id.  `getLastInsertId`
returns `null` whenever `_lastInsertId` is falsy: inserting `{id: 0}`
into a table whose trigger vetoes leaves the table unchanged and
`_lastInsertId = 0`, yet `getLastInsertId` returns `null`, not 0. -/
theorem C9_lastInsertId_falsy_counterexample :
    tblRows (insert dbC9 "t" [("id", vInt 0)] "TS").2 "t" = some []
    ∧ (insert dbC9 "t" [("id", vInt 0)] "TS").2.lastInsertId = vInt 0
    ∧ getLastInsertId (insert dbC9 "t" [("id", vInt 0)] "TS").2 = none := by
  refine ⟨rfl, rfl, rfl⟩

/-- C4 (amended).  `update` treats a row as matching iff every pending
condition's field value is strictly equal to the condition's value,
ignoring operators; this coincides with the read evaluator's
where-condition step exactly when every pending condition carries the
default (equality) operator, i.e. no `IN`/`LIKE`/`>`/`<`/`>=`/`<=`/`!=`
condition is pending. -/
theorem C4_update_matcher_equals_evaluator_on_equality_conditions
    (conds : List Cond) (row : Row)
    (h : ∀ c ∈ conds, c.operator ≠ "IN" ∧ c.operator ≠ "LIKE" ∧
      c.operator ≠ ">" ∧ c.operator ≠ "<" ∧ c.operator ≠ ">=" ∧
      c.operator ≠ "<=" ∧ c.operator ≠ "!=") :
    eqMatches conds row = conds.all (condMatch row) := by
  induction conds with
  | nil => rfl
  | cons c cs ih =>
    obtain ⟨h1, h2, h3, h4, h5, h6, h7⟩ := h c (List.mem_cons_self c cs)
    have hrest := ih (fun x hx => h x (List.mem_cons_of_mem c hx))
    simp only [eqMatches, List.all_cons] at hrest ⊢
    rw [hrest]
    congr 1
    unfold condMatch
    rw [if_neg h1, if_neg h2, if_neg h3, if_neg h4, if_neg h5, if_neg h6, if_neg h7]

/-- Witness for C4: a single default-operator condition `a = 1` against
the row `{a: 1}`. -/
theorem C4_amended_witness :
    (∀ c ∈ ([⟨"a", "AND", .v (vInt 1)⟩] : List Cond),
      c.operator ≠ "IN" ∧ c.operator ≠ "LIKE" ∧ c.operator ≠ ">" ∧
      c.operator ≠ "<" ∧ c.operator ≠ ">=" ∧ c.operator ≠ "<=" ∧
      c.operator ≠ "!=")
    ∧ eqMatches [⟨"a", "AND", .v (vInt 1)⟩] [("a", vInt 1)]
        = ([⟨"a", "AND", .v (vInt 1)⟩] : List Cond).all
            (condMatch [("a", vInt 1)]) :=
  ⟨by decide,
    C4_update_matcher_equals_evaluator_on_equality_conditions
      [⟨"a", "AND", .v (vInt 1)⟩] [("a", vInt 1)] (by decide)⟩

/-- C5 (amended).  An auto-increment insert appends a row whose id is
`getNextId` (the `parseInt`-based maximum plus one, no 0 floor for
parsable ids); on an empty table that id is 1; across successive
auto-increment inserts the assigned id strictly increases; and the
assigned id is a function of that table's rows only (independence from
all other tables). -/
theorem C5_auto_increment_amended
    (s : DB) (t : String) (ref : Nat) (rows : List Row) (now : String)
    (h1 : s.tables.lookup t = some ref)
    (h2 : s.heap.get? ref = some rows)
    (h3 : s.triggers.lookup t = none)
    (h4 : s.timestamps = false) :
    tblRows (insert s t [("id", vStr "AUTO_INCREMENT")] now).2 t
      = some (rows ++ [[("id", vInt (getNextId s t))]])
    ∧ (rows = [] → getNextId s t = 1)
    ∧ getNextId s t < getNextId (insert s t [("id", vStr "AUTO_INCREMENT")] now).2 t
    ∧ ∀ s2 : DB, tblRows s2 t = tblRows s t → getNextId s2 t = getNextId s t := by
  have hlt : ref < s.heap.length := (List.get?_eq_some.mp h2).1
  have htbl : tblRows s t = some rows := by
    unfold tblRows heapRows
    rw [h1, Option.map_some', h2]
    rfl
  have hins : (insert s t [("id", vStr "AUTO_INCREMENT")] now).2
      = { s with heap := s.heap.set ref (rows ++ [[("id", vInt (getNextId s t))]]),
                 lastInsertId := vInt (getNextId s t) } := by
    unfold insert
    rw [h1]
    have hA : (jsGet ([("id", vStr "AUTO_INCREMENT")] : Row) "id"
        == vStr "AUTO_INCREMENT") = true := rfl
    simp only [hA, if_true, h3, h4, Bool.false_eq_true, if_false,
      Option.getD_none, heapRows, h2, Option.getD_some]
    rfl
  have hone : tblRows (insert s t [("id", vStr "AUTO_INCREMENT")] now).2 t
      = some (rows ++ [[("id", vInt (getNextId s t))]]) := by
    rw [hins]
    show ((s.tables.lookup t).map _) = _
    rw [h1, Option.map_some']
    simp only [Option.some.injEq, heapRows]
    rw [List.get?_eq_getElem?, List.getElem?_set_eq_of_lt _ hlt]
    rfl
  refine ⟨hone, ?_, ?_, ?_⟩
  · intro hnil
    unfold getNextId
    rw [htbl, hnil]
  · rw [show getNextId (insert s t [("id", vStr "AUTO_INCREMENT")] now).2 t
        = (match tblRows (insert s t [("id", vStr "AUTO_INCREMENT")] now).2 t with
           | none => 1
           | some [] => 1
           | some (r :: rest) =>
             (rest.map (fun row => (parseIntV (jsGet row "id")).getD 0)).foldl max
               ((parseIntV (jsGet r "id")).getD 0) + 1 : Int) from rfl]
    rw [hone]
    cases rows with
    | nil => exact lt_add_one _
    | cons r rest =>
      simp only [List.cons_append]
      have hmem : getNextId s t
          ∈ ((rest ++ [[("id", vInt (getNextId s t))]]).map
              (fun row => (parseIntV (jsGet row "id")).getD 0)) :=
        List.mem_map.mpr ⟨[("id", vInt (getNextId s t))],
          List.mem_append_right _ (List.mem_singleton.mpr rfl), rfl⟩
      have := mem_le_foldl_max _ ((parseIntV (jsGet r "id")).getD 0) _ hmem
      omega
  · intro s2 hs2
    unfold getNextId
    rw [hs2]

/-- Witness for C5: auto-increment insert into a table whose only row
has id 3 (appends id 4, strictly above 3). -/
theorem C5_amended_witness :
    dbC5w.tables.lookup "t" = some 0
    ∧ dbC5w.heap.get? 0 = some [[("id", vInt 3)]]
    ∧ dbC5w.triggers.lookup "t" = none
    ∧ dbC5w.timestamps = false
    ∧ tblRows (insert dbC5w "t" [("id", vStr "AUTO_INCREMENT")] "TS").2 "t"
        = some ([[("id", vInt 3)]] ++ [[("id", vInt (getNextId dbC5w "t"))]])
    ∧ getNextId dbC5w "t"
        < getNextId (insert dbC5w "t" [("id", vStr "AUTO_INCREMENT")] "TS").2 "t" :=
  ⟨rfl, rfl, rfl, rfl,
    (C5_auto_increment_amended dbC5w "t" 0 [[("id", vInt 3)]] "TS"
      rfl rfl rfl rfl).1,
    (C5_auto_increment_amended dbC5w "t" 0 [[("id", vInt 3)]] "TS"
      rfl rfl rfl rfl).2.2.1⟩

/-- C6 (confirmed).  From a clean builder state, the chain
`where(f1, v1).orWhere(f2, v2).get(t)` returns exactly the rows whose
`f1` equals `v1` AND whose `f2` equals `v2`: the `OR` conjunction tag
recorded by `orWhere` lands in the evaluator's default (equality) switch
branch and is never consulted. -/
theorem C6_orWhere_is_conjunctive
    (s : DB) (t : String) (ref : Nat) (rows : List Row)
    (f1 f2 : String) (v1 v2 : Value)
    (h1 : s.tables.lookup t = some ref)
    (h2 : s.heap.get? ref = some rows)
    (hsd : s.softDelete = false)
    (hw : s.whereConditions = [])
    (hse : s.searchConditions = [])
    (ho : s.orderBySpec = none)
    (hl : s.limitN = none) :
    (get (orWhere (whereCond s f1 v1 "AND") f2 v2) t).1
      = .ok (rows.filter (fun r => (jsGet r f1 == v1) && (jsGet r f2 == v2))) := by
  have hc1 : ∀ row : Row, condMatch row ⟨f1, "AND", .v v1⟩ = (jsGet row f1 == v1) := by
    intro row; rfl
  have hc2 : ∀ row : Row, condMatch row ⟨f2, "OR", .v v2⟩ = (jsGet row f2 == v2) := by
    intro row; rfl
  unfold get orWhere whereCond
  simp only [hw, List.nil_append, List.singleton_append]
  rw [h1]
  simp only [heapRows, h2, Option.getD_some, hsd, Bool.false_eq_true, if_false,
    applyConditions, hse, ho, hl]
  simp only [whereFilter, List.all_cons, List.all_nil, Bool.and_true,
    List.length_cons, List.length_nil]
  norm_num
  apply List.filter_congr
  intro r _
  rw [hc1, hc2]

/-- Witness for C6: `where age 25` then `orWhere name Jane` on a
three-row table returns only the row satisfying both. -/
theorem C6_orWhere_witness :
    dbC6w.tables.lookup "users" = some 0
    ∧ dbC6w.softDelete = false
    ∧ dbC6w.whereConditions = []
    ∧ (get (orWhere (whereCond dbC6w "age" (vInt 25) "AND") "name" (vStr "Jane"))
        "users").1
      = .ok ([[("age", vInt 25), ("name", vStr "Jane")],
              [("age", vInt 25), ("name", vStr "Bob")],
              [("age", vInt 30), ("name", vStr "Jane")]].filter
          (fun r => (jsGet r "age" == vInt 25) && (jsGet r "name" == vStr "Jane"))) :=
  ⟨rfl, rfl, rfl,
    C6_orWhere_is_conjunctive dbC6w "users" 0
      [[("age", vInt 25), ("name", vStr "Jane")],
       [("age", vInt 25), ("name", vStr "Bob")],
       [("age", vInt 30), ("name", vStr "Jane")]]
      "age" "name" (vInt 25) (vStr "Jane") rfl rfl rfl rfl rfl rfl rfl⟩

/-- C7 (confirmed).  With soft delete enabled, a matching, non-vetoed
row is annotated with `deleted_at = now` and kept in the stored row
sequence (visible to direct store inspection), yet is excluded from the
subsequent `get` result, `count` reflects that exclusion, and `truncate`
still empties the stored sequence physically. -/
theorem C7_soft_delete_annotates_hides_and_truncates
    (s : DB) (t : String) (ref : Nat) (rows : List Row) (r : Row)
    (now : String)
    (h1 : s.tables.lookup t = some ref)
    (h2 : s.heap.get? ref = some rows)
    (hsd : s.softDelete = true)
    (hr : r ∈ rows)
    (hm : eqMatches s.whereConditions r = true)
    (hv : fireTriggers ((s.triggers.lookup t).getD []) "delete" (some r) none = true)
    (hnow : now ≠ "") :
    (rowSet r "deleted_at" (vStr now) ∈ (tblRows (delete s t now).2 t).getD [])
    ∧ (∃ res : List Row, (get (delete s t now).2 t).1 = .ok res
        ∧ rowSet r "deleted_at" (vStr now) ∉ res
        ∧ (count (delete s t now).2 t).1 = .ok res.length)
    ∧ tblRows (truncate (delete s t now).2 t).2 t = some [] := by
  have hgr : (fun row =>
      if eqMatches s.whereConditions row
          && fireTriggers ((s.triggers.lookup t).getD []) "delete" (some row) none
      then rowSet row "deleted_at" (vStr now) else row) r
      = rowSet r "deleted_at" (vStr now) := by
    simp only [hm, hv, Bool.and_self, if_true]
  have hT1 : tblRows (delete s t now).2 t
      = some (rows.map (fun row =>
          if eqMatches s.whereConditions row
              && fireTriggers ((s.triggers.lookup t).getD []) "delete" (some row) none
          then rowSet row "deleted_at" (vStr now) else row)) := by
    rw [delete_soft_state s t ref rows now h1 h2 hsd]
    simp only [tblRows, resetConditions, heapRows, lookup_mapSet_self,
      Option.map_some', List.get?_concat_length, Option.getD_some]
  have hmarked : jsGet (rowSet r "deleted_at" (vStr now)) "deleted_at" = vStr now :=
    jsGet_rowSet_self r "deleted_at" (vStr now)
  have htruthy : truthy (vStr now) = true := by
    simp only [truthy, bne_iff_ne, ne_eq]
    exact hnow
  refine ⟨?_, ?_, ?_⟩
  · rw [hT1]
    exact List.mem_map.mpr ⟨r, hr, hgr⟩
  · refine ⟨_, congrArg Prod.fst (get_after_soft_delete s t ref rows now h1 h2 hsd),
      ?_, ?_⟩
    · intro hmem
      have hp := (List.mem_filter.mp hmem).2
      rw [hmarked, htruthy] at hp
      exact Bool.false_ne_true hp
    · unfold count
      rw [get_after_soft_delete s t ref rows now h1 h2 hsd]
  · have hlook : ((delete s t now).2).tables.lookup t = some (s.heap.length) := by
      rw [delete_soft_state s t ref rows now h1 h2 hsd]
      simp only [resetConditions, lookup_mapSet_self]
    exact truncate_tblRows _ t (s.heap.length) hlook

/-- Witness for C7: soft-deleting `id = 1` out of a two-row table. -/
theorem C7_soft_delete_witness :
    dbC7w.tables.lookup "t" = some 0
    ∧ dbC7w.softDelete = true
    ∧ ([("id", vInt 1)] : Row) ∈ [[("id", vInt 1)], [("id", vInt 2)]]
    ∧ eqMatches dbC7w.whereConditions [("id", vInt 1)] = true
    ∧ ((rowSet [("id", vInt 1)] "deleted_at" (vStr "TS")
          ∈ (tblRows (delete dbC7w "t" "TS").2 "t").getD [])
        ∧ (∃ res : List Row, (get (delete dbC7w "t" "TS").2 "t").1 = .ok res
            ∧ rowSet [("id", vInt 1)] "deleted_at" (vStr "TS") ∉ res
            ∧ (count (delete dbC7w "t" "TS").2 "t").1 = .ok res.length)
        ∧ tblRows (truncate (delete dbC7w "t" "TS").2 "t").2 "t" = some []) :=
  ⟨rfl, rfl, by decide, rfl,
    C7_soft_delete_annotates_hides_and_truncates dbC7w "t" 0
      [[("id", vInt 1)], [("id", vInt 2)]] [("id", vInt 1)] "TS"
      rfl rfl rfl (by decide) rfl rfl (by decide)⟩

/-- C9 (amended).  `insert` on an existing table always stores the
row's (auto-resolved) id into `_lastInsertId` — in particular also when
a trigger vetoes the insert — and `getLastInsertId` afterwards returns
that id exactly when it is truthy; a falsy id (such as 0) makes it
return `null`. -/
theorem C9_lastInsertId_amended
    (s : DB) (t : String) (ref : Nat) (d : Row) (now : String)
    (h : s.tables.lookup t = some ref) :
    ((insert s t d now).2.lastInsertId = resolvedId s t d)
    ∧ (truthy (resolvedId s t d) = true →
        getLastInsertId (insert s t d now).2 = some (resolvedId s t d))
    ∧ (truthy (resolvedId s t d) = false →
        getLastInsertId (insert s t d now).2 = none) := by
  have key : (insert s t d now).2.lastInsertId = resolvedId s t d := by
    unfold insert resolvedId
    rw [h]
    cases hA : jsGet d "id" == vStr "AUTO_INCREMENT" with
    | true => simp only [hA, if_true, jsGet_rowSet_self]; split <;> split <;> rfl
    | false =>
      simp only [hA, Bool.false_eq_true, if_false]
      split <;> split <;> rfl
  refine ⟨key, ?_, ?_⟩
  · intro ht; unfold getLastInsertId; rw [key, ht]; rfl
  · intro ht; unfold getLastInsertId; rw [key, ht]; rfl

/-- Witness for C9: inserting `{id: 7}` into a table whose trigger
vetoes still records 7, and `getLastInsertId` returns it. -/
theorem C9_amended_witness :
    dbC9w.tables.lookup "t" = some 0
    ∧ ((insert dbC9w "t" [("id", vInt 7)] "TS").2.lastInsertId
        = resolvedId dbC9w "t" [("id", vInt 7)])
    ∧ (truthy (resolvedId dbC9w "t" [("id", vInt 7)]) = true →
        getLastInsertId (insert dbC9w "t" [("id", vInt 7)] "TS").2
          = some (resolvedId dbC9w "t" [("id", vInt 7)])) :=
  ⟨rfl,
    (C9_lastInsertId_amended dbC9w "t" 0 [("id", vInt 7)] "TS" rfl).1,
    (C9_lastInsertId_amended dbC9w "t" 0 [("id", vInt 7)] "TS" rfl).2.1⟩

/-- C10 (confirmed).  Each terminal operation called on a missing table
raises `TableNotFound` and returns the state entirely unchanged — in
particular the accumulated where/search/order/limit builder state
survives — and the next terminal call behaves exactly as if the failed
call had never happened. -/
theorem C10_missing_table_preserves_conditions
    (s : DB) (t : String) (d : Row) (now : String)
    (h : s.tables.lookup t = none) :
    get s t = (.error (.tableNotFound t), s)
    ∧ update s t d now = (.error (.tableNotFound t), s)
    ∧ delete s t now = (.error (.tableNotFound t), s)
    ∧ count s t = (.error (.tableNotFound t), s)
    ∧ getOne s t = (.error (.tableNotFound t), s)
    ∧ ∀ t2 : String, get ((get s t).2) t2 = get s t2 := by
  have hg : get s t = (.error (.tableNotFound t), s) := by unfold get; rw [h]
  refine ⟨hg, ?_, ?_, ?_, ?_, ?_⟩
  · unfold update; rw [h]
  · unfold delete; rw [h]
  · unfold count; rw [hg]
  · unfold getOne; rw [hg]
  · intro t2; rw [hg]

/-- Witness for C10: a store with pending where/search/order/limit state
and no table named `missing`. -/
theorem C10_missing_table_witness :
    dbC10w.tables.lookup "missing" = none
    ∧ get dbC10w "missing" = (.error (.tableNotFound "missing"), dbC10w)
    ∧ update dbC10w "missing" [("x", vInt 1)] "TS"
        = (.error (.tableNotFound "missing"), dbC10w)
    ∧ count dbC10w "missing" = (.error (.tableNotFound "missing"), dbC10w) :=
  ⟨rfl,
    (C10_missing_table_preserves_conditions dbC10w "missing" [("x", vInt 1)] "TS"
      rfl).1,
    (C10_missing_table_preserves_conditions dbC10w "missing" [("x", vInt 1)] "TS"
      rfl).2.1,
    (C10_missing_table_preserves_conditions dbC10w "missing" [("x", vInt 1)] "TS"
      rfl).2.2.2.1⟩

end VDB
